import Mathlib

/-!
Shallow embedding of the dynamic-form engine of the CIRAV3 repository.

Part 1 mirrors `src/src/components/tickets/TicketForm.tsx`:
the field data model, the visibility resolver `isFieldVisible`
(source lines 63-80), the option resolver `getOptionsForField`
(lines 82-113) and the fixpoint cleaning loop inside `handleChange`
(lines 144-190).

The source's `isFieldVisible` is recursive with no termination guard,
so the embedding gives it an explicit fuel argument: a result of
`none` means the computation did not complete within the given
recursion depth, `some b` means the source function returns `b`
reaching depth at most the fuel.  The cleaning loop `cleanData`
likewise gets a pass-count fuel.

Part 2 mirrors `src/src/components/dashboard/FormEditor.tsx`:
the schema-editor mutations (`handleAddField`, `handleDeleteField`,
`onDragEnd`) and the save path `handleSaveChanges` modelled as a pure
function from the original and edited field lists to the list of
batched write operations.
-/

namespace CIRAV

/-- `{ field, value }` pair used both for a field's `conditional`
visibility rule and for an option set's `condition`. -/
structure Cond where
  field : String
  value : String
deriving DecidableEq

/-- One entry of a select field's `optionSets` list. -/
structure OptionSet where
  options : List String
  condition : Option Cond
deriving DecidableEq

/-- `FormField` as in TicketForm.tsx (the ticket-form view of a field;
`order` is only used for sorting by the store and is not part of this
interface). -/
structure FormField where
  id : String
  label : String
  type : String
  name : String
  options : Option (List String)
  optionSets : Option (List OptionSet)
  conditional : Option Cond
deriving DecidableEq

/-- `formData` / the FormValueSet: a total map from field names to the
entered string; the empty string plays the role of JS
`undefined`/empty (both are falsy and both differ from every non-empty
string, which is all the source ever tests). -/
def Values : Type := String → String

/-- `{ ...data, [name]: value }`. -/
def upd (data : Values) (key val : String) : Values :=
  fun k => if k = key then val else data k

/-- `isFieldVisible` (TicketForm.tsx lines 63-80) with explicit fuel.
The source recurses on the controlling field with no guard; `none`
means the recursion did not bottom out within `fuel` steps. -/
def isFieldVisible (fields : List FormField) : Nat → FormField → Values → Option Bool
  | 0, _, _ => none
  | fuel + 1, f, data =>
    match f.conditional with
    | some c =>
      if c.field ≠ "" ∧ c.value ≠ "" then
        match fields.find? (fun g => g.id == c.field) with
        | none => some false
        | some controlling =>
          let v := data controlling.name
          if c.value = "any" then
            if v = "" then some false
            else isFieldVisible fields fuel controlling data
          else
            if v ≠ c.value then some false
            else isFieldVisible fields fuel controlling data
      else some true
    | none => some true

/-- Data-independent sufficient condition for `isFieldVisible` to
complete within the given fuel: follow the chain of `conditional`
references, spending one unit per hop, treating the cases where the
source returns without recursing as immediately satisfied. -/
def chainOk (fields : List FormField) : Nat → FormField → Bool
  | 0, _ => false
  | fuel + 1, f =>
    match f.conditional with
    | some c =>
      if c.field ≠ "" ∧ c.value ≠ "" then
        match fields.find? (fun g => g.id == c.field) with
        | none => true
        | some controlling => chainOk fields fuel controlling
      else true
    | none => true

/-- The predicate of the `conditionalSets` filter inside
`getOptionsForField` (lines 91-102): an option set applies when its
condition is present and complete, the referenced field exists, and
the referenced field's current value satisfies the condition
(`"any"` means non-empty, otherwise exact string equality). -/
def condMatches (fields : List FormField) (data : Values) (s : OptionSet) : Bool :=
  match s.condition with
  | none => false
  | some c =>
    if c.field = "" ∨ c.value = "" then false
    else
      match fields.find? (fun g => g.id == c.field) with
      | none => false
      | some controlling =>
        let v := data controlling.name
        if c.value = "any" then v ≠ "" else v == c.value

/-- `[...new Set(options)]`: deduplication keeping the first
occurrence of each element, in order. -/
def jsDedup (l : List String) : List String :=
  l.foldl (fun acc x => if x ∈ acc then acc else acc ++ [x]) []

/-- The options of the first condition-less (`!set.condition`) entry
of `optionSets`, or `[]` when there is none — the `defaultSet` of
`getOptionsForField` (line 88). -/
def defaultOptions (sets : List OptionSet) : List String :=
  match sets.find? (fun s => s.condition.isNone) with
  | some s => s.options
  | none => []

/-- `getOptionsForField` (TicketForm.tsx lines 82-113). -/
def getOptionsForField (fields : List FormField) (f : FormField) (data : Values) : List String :=
  if f.type ≠ "select" then []
  else
    match f.optionSets with
    | some sets =>
      if sets.length > 0 then
        let base := defaultOptions sets
        let condSets := sets.filter (condMatches fields data)
        let opts := if condSets.length > 0 then base ++ condSets.flatMap (fun s => s.options) else base
        jsDedup opts
      else f.options.getD []
    | none => f.options.getD []

/-- One iteration of the `formFields.forEach` body of `cleanData`
(lines 158-175), folded over the remaining fields; `allFields` is the
full schema used for visibility/option resolution while the first
list argument is the tail still to be processed.  `none` propagates a
visibility computation that ran out of fuel. -/
def cleanPassAux (allFields : List FormField) (visFuel : Nat) :
    List FormField → Values → Bool → Option (Values × Bool)
  | [], data, changed => some (data, changed)
  | f :: rest, data, changed =>
    match isFieldVisible allFields visFuel f data with
    | none => none
    | some vis =>
      if vis = false then
        if data f.name ≠ "" then
          cleanPassAux allFields visFuel rest (upd data f.name "") true
        else
          cleanPassAux allFields visFuel rest data changed
      else
        if f.type = "select" then
          if data f.name ≠ "" ∧ data f.name ∉ getOptionsForField allFields f data then
            cleanPassAux allFields visFuel rest (upd data f.name "") true
          else
            cleanPassAux allFields visFuel rest data changed
        else
          cleanPassAux allFields visFuel rest data changed

/-- The recursive `cleanData` of `handleChange` (lines 154-184) with a
pass-count fuel: each unit of fuel pays for one full pass over the
schema; the loop stops at the first pass that reports no change.
`none` means the fuel was exhausted before a pass came back clean (or
a visibility check ran out of its own fuel). -/
def cleanDataFuel (fields : List FormField) (visFuel : Nat) : Nat → Values → Option Values
  | 0, _ => none
  | p + 1, data =>
    match cleanPassAux fields visFuel fields data false with
    | none => none
    | some (d, changed) => if changed then cleanDataFuel fields visFuel p d else some d

/-- `handleChange` (lines 144-190) as the consistency engine's entry
point: apply the user's single-field edit, then run the cleaning
fixpoint. -/
def onFieldChange (fields : List FormField) (visFuel passFuel : Nat)
    (name value : String) (values : Values) : Option Values :=
  cleanDataFuel fields visFuel passFuel (upd values name value)

/-! ## Schema editor (src/src/components/dashboard/FormEditor.tsx) -/

/-- `Field` as in FormEditor.tsx: the ticket-form shape plus the
persisted `order`. -/
structure Field where
  id : String
  label : String
  type : String
  name : String
  order : Nat
  options : Option (List String)
  optionSets : Option (List OptionSet)
  conditional : Option Cond
deriving DecidableEq

/-- The document payload written by `handleSaveChanges` for one field:
`field` minus its `id` (`const { id, ...fieldData } = field`), after
sanitization. -/
structure FieldData where
  label : String
  type : String
  name : String
  order : Nat
  options : Option (List String)
  optionSets : Option (List OptionSet)
  conditional : Option Cond
deriving DecidableEq

/-- First `optionSets` filter of `handleSaveChanges` (lines 114-120):
keep a set unless its condition is present but incomplete. -/
def completeCondSet (s : OptionSet) : Bool :=
  match s.condition with
  | some c => ¬ (c.field = "" ∨ c.value = "")
  | none => true

/-- Second `optionSets` filter (lines 123-125): keep a set when it has
options or is condition-less (the default). -/
def keepSet (s : OptionSet) : Bool :=
  s.options.length > 0 ∨ s.condition.isNone

/-- The per-field sanitization of `handleSaveChanges`
(FormEditor.tsx lines 103-131): strip the id, overwrite `order` with
the field's position `index` in the edited list, drop an incomplete
top-level `conditional`, drop option sets whose condition is
incomplete, then drop option sets that have a condition but no
options (a condition-less set survives even with no options), and
delete the legacy `options` when the surviving `optionSets` list is
non-empty. -/
def sanitizeField (f : Field) (index : Nat) : FieldData :=
  let conditional :=
    match f.conditional with
    | some c => if c.field = "" ∨ c.value = "" then none else some c
    | none => none
  match f.optionSets with
  | none =>
    { label := f.label, type := f.type, name := f.name, order := index,
      options := f.options, optionSets := none, conditional := conditional }
  | some sets =>
    let sets2 := (sets.filter completeCondSet).filter keepSet
    { label := f.label, type := f.type, name := f.name, order := index,
      options := if sets2.length > 0 then none else f.options,
      optionSets := some sets2, conditional := conditional }

/-- One write of the Firestore batch built by `handleSaveChanges`:
`batch.set` on a fresh document (insert, no id), `batch.update` on an
existing document id, or `batch.delete`. -/
inductive WriteOp where
  | setDoc (data : FieldData)
  | updateDoc (id : String) (data : FieldData)
  | deleteDoc (id : String)
deriving DecidableEq

def isSetOp : WriteOp → Bool
  | WriteOp.setDoc _ => true
  | _ => false

def isUpdateOp : WriteOp → Bool
  | WriteOp.updateDoc _ _ => true
  | _ => false

def isDeleteOp : WriteOp → Bool
  | WriteOp.deleteDoc _ => true
  | _ => false

/-- `id.startsWith('new-')`, the placeholder-id test of
`handleSaveChanges` (line 133), written over the character list so it
evaluates structurally. -/
def isNewId (id : String) : Bool :=
  match id.data with
  | 'n' :: 'e' :: 'w' :: '-' :: _ => true
  | _ => false

/-- `handleSaveChanges` (FormEditor.tsx lines 99-149) as the list of
batched writes: every edited field whose id begins with the `new-`
placeholder becomes a `set` (insert) of its sanitized payload, every
other edited field becomes an `update` at its id, and every original
field whose id no longer occurs in the edited list becomes a
`delete`. -/
def saveOps (original edited : List Field) : List WriteOp :=
  (edited.enum.map (fun p =>
    let d := sanitizeField p.2 p.1
    if isNewId p.2.id then WriteOp.setDoc d
    else WriteOp.updateDoc p.2.id d))
  ++ ((original.filter (fun f => ¬ edited.any (fun g => g.id == f.id))).map
      (fun f => WriteOp.deleteDoc f.id))

/-- The `.map((field, index) => ({ ...field, order: index }))`
renumbering shared by `handleDeleteField` and `onDragEnd`. -/
def renumber (l : List Field) : List Field :=
  l.enum.map (fun p => { p.2 with order := p.1 })

/-- `handleDeleteField` (FormEditor.tsx lines 93-97). -/
def handleDeleteField (id : String) (fields : List Field) : List Field :=
  renumber (fields.filter (fun f => f.id ≠ id))

/-- `items.splice(i, 0, x)`: JS clamps an out-of-range index to the
end of the array. -/
def jsInsertAt (l : List Field) (i : Nat) (x : Field) : List Field :=
  if i ≤ l.length then l.insertIdx i x else l ++ [x]

/-- `onDragEnd` (FormEditor.tsx lines 234-241), destination present:
remove the dragged item, re-insert it at the destination index, then
renumber.  (A drop outside the list returns early in the source and
changes nothing; drag indices supplied by the DnD library are within
range, so the `none` branch of the removal is unreachable there.) -/
def onDragEnd (src dst : Nat) (fields : List Field) : List Field :=
  let rest := fields.eraseIdx src
  let items :=
    match fields[src]? with
    | some x => jsInsertAt rest dst x
    | none => rest
  renumber items

/-- `name: newField.label.toLowerCase().replace(/\s/g, '-')`, applied
per character (lower-casing never turns a character into or out of
whitespace, so lower-then-replace equals this single pass). -/
def deriveName (label : String) : String :=
  ⟨label.data.map (fun c => if c.isWhitespace then '-' else c.toLower)⟩

/-- The `newField` editor state consumed by `handleAddField`. -/
structure NewFieldInput where
  label : String
  type : String
  options : List String
  conditional : Option Cond
deriving DecidableEq

/-- `handleAddField` (FormEditor.tsx lines 70-91): `none` when the
label is empty (local validation error, no mutation); otherwise
appends a field with placeholder id `new-` ++ `ts` (the
`Date.now()` stamp is a parameter here) and `order = length`,
carrying a single default option set when the type is `select` and
the conditional only when it is complete. -/
def handleAddField (nf : NewFieldInput) (ts : String) (fields : List Field) :
    Option (List Field) :=
  if nf.label = "" then none
  else
    some (fields ++ [{
      id := "new-" ++ ts,
      label := nf.label,
      type := nf.type,
      name := deriveName nf.label,
      order := fields.length,
      options := none,
      optionSets :=
        if nf.type = "select" then
          some [{ options := nf.options.filter (fun o => o.trim ≠ ""), condition := none }]
        else none,
      conditional :=
        match nf.conditional with
        | some c => if c.field ≠ "" ∧ c.value ≠ "" then some c else none
        | none => none }])

/-! ## Concrete schemas and value sets used by the claims -/

/-- Cascading-clear schema, field A: a root select with plain options
`["1","2"]`. -/
def fieldA : FormField :=
  { id := "fA", label := "A", type := "select", name := "a",
    options := some ["1", "2"], optionSets := none, conditional := none }

/-- Cascading-clear schema, field B: visible only when A = "1"; its
option sets depend on A's value. -/
def fieldB : FormField :=
  { id := "fB", label := "B", type := "select", name := "b",
    options := none,
    optionSets := some
      [{ options := [], condition := none },
       { options := ["b1", "b2"], condition := some { field := "fA", value := "1" } },
       { options := ["b3"], condition := some { field := "fA", value := "2" } }],
    conditional := some { field := "fA", value := "1" } }

/-- Cascading-clear schema, field C: visible only when B = "b1". -/
def fieldC : FormField :=
  { id := "fC", label := "C", type := "text", name := "c",
    options := none, optionSets := none,
    conditional := some { field := "fB", value := "b1" } }

def c1Fields : List FormField := [fieldA, fieldB, fieldC]

/-- Starting state A="1", B="b1", C="c1". -/
def c1Vals : Values :=
  fun n => if n = "a" then "1" else if n = "b" then "b1" else if n = "c" then "c1" else ""

/-- Cyclic schema, field X: visible only when Y has any value. -/
def cycX : FormField :=
  { id := "x", label := "X", type := "select", name := "xv",
    options := some ["1"], optionSets := none,
    conditional := some { field := "y", value := "any" } }

/-- Cyclic schema, field Y: visible only when X has any value. -/
def cycY : FormField :=
  { id := "y", label := "Y", type := "select", name := "yv",
    options := some ["1"], optionSets := none,
    conditional := some { field := "x", value := "any" } }

def cycFields : List FormField := [cycX, cycY]

/-- Both cyclic fields currently hold a non-empty value, so neither
conditional check fails early and the source recurses forever. -/
def cycVals : Values :=
  fun n => if n = "xv" then "1" else if n = "yv" then "1" else ""

/-- One-field schema whose only field has a complete but dangling
conditional, so it is never visible. -/
def loneField : FormField :=
  { id := "f1", label := "F", type := "text", name := "fv",
    options := none, optionSets := none,
    conditional := some { field := "ghost", value := "v" } }

def loneVals : Values := fun n => if n = "fv" then "x" else ""

/-- Option-resolver example, controlling select T. -/
def fieldT : FormField :=
  { id := "tid", label := "T", type := "select", name := "t",
    options := some ["t1", "t2"], optionSets := none, conditional := none }

/-- Option-resolver example, select S: default options `["x","y"]`
plus `["y","z"]` when T = "t1". -/
def fieldS : FormField :=
  { id := "sid", label := "S", type := "select", name := "s",
    options := none,
    optionSets := some
      [{ options := ["x", "y"], condition := none },
       { options := ["y", "z"], condition := some { field := "tid", value := "t1" } }],
    conditional := none }

/-- Select whose second option set's condition references a
non-existent field id. -/
def fieldSD : FormField :=
  { id := "sdid", label := "SD", type := "select", name := "sd",
    options := none,
    optionSets := some
      [{ options := ["x", "y"], condition := none },
       { options := ["q"], condition := some { field := "nope", value := "t1" } }],
    conditional := none }

/-- Non-select field that nevertheless carries options. -/
def fieldTx : FormField :=
  { id := "txid", label := "TX", type := "text", name := "tx",
    options := some ["o1"],
    optionSets := some [{ options := ["o2"], condition := none }],
    conditional := none }

def c4Fields : List FormField := [fieldT, fieldS, fieldSD, fieldTx]

def c4Vals : Values := fun n => if n = "t" then "t1" else ""

/-- Select with two condition-less option sets and one
incomplete-condition set: only the first condition-less set counts. -/
def fieldQ : FormField :=
  { id := "qid", label := "Q", type := "select", name := "q",
    options := none,
    optionSets := some
      [{ options := ["a"], condition := none },
       { options := ["b"], condition := none },
       { options := ["c"], condition := some { field := "", value := "" } }],
    conditional := none }

def qFields : List FormField := [fieldQ]

/-- Schema-diff scenario: the three persisted fields f1, f2, f3. -/
def e1 : Field :=
  { id := "a", label := "L1", type := "text", name := "l1", order := 0,
    options := none, optionSets := none, conditional := none }

def e2 : Field :=
  { id := "b", label := "L2", type := "text", name := "l2", order := 1,
    options := none, optionSets := none, conditional := none }

def e3 : Field :=
  { id := "c", label := "L3", type := "text", name := "l3", order := 2,
    options := none, optionSets := none, conditional := none }

/-- f1 with its label edited. -/
def e1x : Field := { e1 with label := "L1 v2", name := "l1-v2" }

/-- The newly added field, carrying a `new-` placeholder id. -/
def e4 : Field :=
  { id := "new-42", label := "L4", type := "text", name := "l4", order := 0,
    options := none, optionSets := none, conditional := none }

def c6orig : List Field := [e1, e2, e3]

def c6edited : List Field := [e1x, e4, e3]

/-- Three-field editor list with contiguous orders 0, 1, 2. -/
def g1 : Field :=
  { id := "g1", label := "G1", type := "text", name := "n1", order := 0,
    options := none, optionSets := none, conditional := none }

def g2 : Field :=
  { id := "g2", label := "G2", type := "text", name := "n2", order := 1,
    options := none, optionSets := none, conditional := none }

def g3 : Field :=
  { id := "g3", label := "G3", type := "text", name := "n3", order := 2,
    options := none, optionSets := none, conditional := none }

def c7Fields : List Field := [g1, g2, g3]

/-- A loaded field whose persisted order is not position-contiguous. -/
def c7bad : Field :=
  { id := "z", label := "Z", type := "text", name := "z", order := 5,
    options := none, optionSets := none, conditional := none }

def c7nf : NewFieldInput :=
  { label := "W", type := "text", options := [], conditional := none }

/-- The field `handleAddField c7nf "9"` appends to the 3-field list. -/
def c7NewField : Field :=
  { id := "new-9", label := "W", type := "text", name := "w", order := 3,
    options := none, optionSets := none, conditional := none }

/-- Option sets exercising every sanitization rule of
`handleSaveChanges`: a default set with no options, a complete
conditional set with options, a complete conditional set with no
options, and an incomplete conditional set. -/
def c10Sets : List OptionSet :=
  [{ options := [], condition := none },
   { options := ["k1"], condition := some { field := "tid", value := "t1" } },
   { options := [], condition := some { field := "tid", value := "t2" } },
   { options := ["k2"], condition := some { field := "tid", value := "" } }]

/-- Select field carrying `c10Sets` and a legacy `options` list. -/
def c10Field : Field :=
  { id := "s1", label := "S1", type := "select", name := "s1", order := 0,
    options := some ["legacy"],
    optionSets := some c10Sets,
    conditional := none }

/-- Field whose `conditional` object is present but has an empty
`field` component. -/
def incField : FormField :=
  { id := "i1", label := "I", type := "text", name := "iv",
    options := none, optionSets := none,
    conditional := some { field := "", value := "x" } }

/-! ## Theorems -/

/-- C1: for the three-field cascading schema (select A controlling
B's visibility and options, B controlling C's visibility), starting
from A="1", B="b1", C="c1", one call of the consistency engine with A
changed to "2" clears both B's and C's values to the empty string
(and the cleaning fixpoint completes within the given fuel). -/
theorem C1_cascading_clear :
    (onFieldChange c1Fields 4 4 "a" "2" c1Vals).map (fun d => (d "a", d "b", d "c"))
      = some ("2", "", "") := by decide

/-- C2 (code bug): on the two-field cyclic schema with both values
non-empty, `isFieldVisible` never completes, whatever recursion depth
it is allowed — in particular its recursion is not bounded by the
number of fields and it does not return `false` on a cycle; the
source recurses with no guard until the stack overflows. -/
theorem C2_cycle_never_completes :
    ∀ fuel : Nat, isFieldVisible cycFields fuel cycX cycVals = none := by
  have key : ∀ n : Nat,
      isFieldVisible cycFields n cycX cycVals = none ∧
      isFieldVisible cycFields n cycY cycVals = none := by
    intro n
    induction n with
    | zero => exact ⟨rfl, rfl⟩
    | succ k ih =>
      refine ⟨?_, ?_⟩
      · have hstep : isFieldVisible cycFields (k + 1) cycX cycVals
            = isFieldVisible cycFields k cycY cycVals := rfl
        rw [hstep]
        exact ih.2
      · have hstep : isFieldVisible cycFields (k + 1) cycY cycVals
            = isFieldVisible cycFields k cycX cycVals := rfl
        rw [hstep]
        exact ih.1
  exact fun fuel => (key fuel).1

/-- C5: a field whose `conditional` is complete but references a field
id that no schema field carries is never visible, for every value set
and at every recursion depth — the dangling reference fails closed,
with a defined `false` result rather than an exception. -/
theorem C5_dangling_reference_hidden (fields : List FormField) (f : FormField) (c : Cond)
    (data : Values) (fuel : Nat)
    (h1 : f.conditional = some c) (h2 : c.field ≠ "") (h3 : c.value ≠ "")
    (h4 : ∀ g ∈ fields, g.id ≠ c.field) :
    isFieldVisible fields (fuel + 1) f data = some false := by
  have hfind : fields.find? (fun g => g.id == c.field) = none := by
    rw [List.find?_eq_none]
    intro g hg
    simp [h4 g hg]
  simp [isFieldVisible, h1, h2, h3, hfind]

/-- Witness for C5: the lone field's conditional references the
non-existent id "ghost", so it is hidden. -/
theorem C5_dangling_reference_hidden_witness :
    isFieldVisible [loneField] 3 loneField loneVals = some false :=
  C5_dangling_reference_hidden [loneField] loneField
    { field := "ghost", value := "v" } loneVals 2 rfl
    (by decide) (by decide) (by decide)

/-- C8: a field whose `conditional` object is present but incomplete —
empty `field` component or empty `value` component — is
unconditionally visible, for every value set: the source only
evaluates a conditional whose two components are both non-empty. -/
theorem C8_incomplete_conditional_visible (fields : List FormField) (f : FormField)
    (c : Cond) (data : Values) (fuel : Nat)
    (h1 : f.conditional = some c) (h2 : c.field = "" ∨ c.value = "") :
    isFieldVisible fields (fuel + 1) f data = some true := by
  have hnot : ¬ (c.field ≠ "" ∧ c.value ≠ "") := by tauto
  simp [isFieldVisible, h1, hnot]

/-- Witness for C8: a field with `conditional = { field: "", value:
"x" }` is visible. -/
theorem C8_incomplete_conditional_visible_witness :
    isFieldVisible [incField] 1 incField loneVals = some true :=
  C8_incomplete_conditional_visible [incField] incField
    { field := "", value := "x" } loneVals 0 rfl (Or.inl rfl)

/-! ### Deduplication and option-resolver lemmas -/

lemma jsDedup_go_mem (l : List String) (acc : List String) (o : String) :
    (o ∈ l.foldl (fun acc x => if x ∈ acc then acc else acc ++ [x]) acc) ↔
      o ∈ acc ∨ o ∈ l := by
  induction l generalizing acc with
  | nil => simp
  | cons x xs ih =>
    simp only [List.foldl_cons]
    rw [ih]
    by_cases hx : x ∈ acc
    · simp only [if_pos hx, List.mem_cons]
      constructor
      · rintro (h | h)
        · exact Or.inl h
        · exact Or.inr (Or.inr h)
      · rintro (h | h | h)
        · exact Or.inl h
        · rw [h]; exact Or.inl hx
        · exact Or.inr h
    · simp only [if_neg hx, List.mem_append, List.mem_singleton, List.mem_cons]
      tauto

lemma jsDedup_mem (l : List String) (o : String) : o ∈ jsDedup l ↔ o ∈ l := by
  unfold jsDedup
  rw [jsDedup_go_mem]
  simp

lemma jsDedup_go_nodup (l : List String) :
    ∀ acc : List String, acc.Nodup →
      (l.foldl (fun acc x => if x ∈ acc then acc else acc ++ [x]) acc).Nodup := by
  induction l with
  | nil => intro acc h; simpa using h
  | cons x xs ih =>
    intro acc h
    simp only [List.foldl_cons]
    apply ih
    by_cases hx : x ∈ acc
    · simpa [hx] using h
    · rw [if_neg hx]
      simpa [List.nodup_append, h] using hx

lemma jsDedup_nodup (l : List String) : (jsDedup l).Nodup :=
  jsDedup_go_nodup l [] List.nodup_nil

/-- In the `optionSets` branch, `getOptionsForField` is the
deduplication of the default options followed by the options of the
matching conditional sets. -/
lemma getOptionsForField_optionSets (fields : List FormField) (f : FormField)
    (data : Values) (sets : List OptionSet)
    (hty : f.type = "select") (hos : f.optionSets = some sets) (hne : sets ≠ []) :
    getOptionsForField fields f data =
      jsDedup (if (sets.filter (condMatches fields data)).length > 0
        then defaultOptions sets ++
          (sets.filter (condMatches fields data)).flatMap (fun s => s.options)
        else defaultOptions sets) := by
  have hlen : sets.length > 0 := List.length_pos.mpr hne
  simp [getOptionsForField, hos, hty, hlen]

lemma mem_getOptionsForField (fields : List FormField) (f : FormField) (data : Values)
    (sets : List OptionSet) (o : String)
    (hty : f.type = "select") (hos : f.optionSets = some sets) (hne : sets ≠ []) :
    o ∈ getOptionsForField fields f data ↔
      o ∈ defaultOptions sets ∨
        ∃ s ∈ sets, condMatches fields data s = true ∧ o ∈ s.options := by
  rw [getOptionsForField_optionSets fields f data sets hty hos hne]
  rw [jsDedup_mem]
  by_cases hc : (sets.filter (condMatches fields data)).length > 0
  · rw [if_pos hc]
    simp only [List.mem_append, List.mem_flatMap, List.mem_filter]
    tauto
  · rw [if_neg hc]
    have hnil : sets.filter (condMatches fields data) = [] := by
      rcases List.eq_nil_or_concat (sets.filter (condMatches fields data)) with h | ⟨l, a, h⟩
      · exact h
      · exfalso; apply hc; rw [h]; simp
    constructor
    · exact Or.inl
    · rintro (h | ⟨s, hs, hm, ho⟩)
      · exact h
      · exfalso
        have : s ∈ sets.filter (condMatches fields data) := List.mem_filter.mpr ⟨hs, hm⟩
        rw [hnil] at this
        cases this

/-- C4: for a select field with a non-empty `optionSets` list, the
resolved options are, as a set, the union of the first condition-less
set's options with the options of every conditional set whose
condition matches the current values, with no duplicate in the
returned list; concretely, S's default ["x","y"] joined with the
matching set ["y","z"] resolves to exactly ["x","y","z"], a set whose
condition references a non-existent field id contributes nothing, and
a non-select field resolves to the empty list. -/
theorem C4_option_resolution (fields : List FormField) (f : FormField) (data : Values)
    (sets : List OptionSet)
    (hty : f.type = "select") (hos : f.optionSets = some sets) (hne : sets ≠ []) :
    ((getOptionsForField fields f data).toFinset
        = (defaultOptions sets).toFinset
          ∪ ((sets.filter (condMatches fields data)).flatMap (fun s => s.options)).toFinset
      ∧ (getOptionsForField fields f data).Nodup)
    ∧ getOptionsForField c4Fields fieldS c4Vals = ["x", "y", "z"]
    ∧ getOptionsForField c4Fields fieldSD c4Vals = ["x", "y"]
    ∧ getOptionsForField c4Fields fieldTx c4Vals = [] := by
  refine ⟨⟨?_, ?_⟩, by decide, by decide, by decide⟩
  · ext o
    rw [Finset.mem_union, List.mem_toFinset, List.mem_toFinset, List.mem_toFinset,
      mem_getOptionsForField fields f data sets o hty hos hne]
    simp only [List.mem_flatMap, List.mem_filter]
    tauto
  · rw [getOptionsForField_optionSets fields f data sets hty hos hne]
    exact jsDedup_nodup _

/-- Witness for C4: the x/y/z example itself. -/
theorem C4_option_resolution_witness :
    (getOptionsForField c4Fields fieldS c4Vals).Nodup ∧
      getOptionsForField c4Fields fieldS c4Vals = ["x", "y", "z"] :=
  ⟨((C4_option_resolution c4Fields fieldS c4Vals _ rfl rfl (by decide)).1).2,
    (C4_option_resolution c4Fields fieldS c4Vals _ rfl rfl (by decide)).2.1⟩

/-- C9: every option resolved for a select field comes from the first
condition-less option set or from a matching set whose condition is
present and complete; the first condition-less set's options always
contribute; and on the concrete schema with two condition-less sets
and an incomplete-condition set, only the first set's options are
returned whatever the values. -/
theorem C9_first_default_only (fields : List FormField) (f : FormField) (data : Values)
    (sets : List OptionSet)
    (hty : f.type = "select") (hos : f.optionSets = some sets) (hne : sets ≠ []) :
    (∀ o ∈ defaultOptions sets, o ∈ getOptionsForField fields f data)
    ∧ (∀ o ∈ getOptionsForField fields f data,
        o ∈ defaultOptions sets ∨ ∃ s ∈ sets, condMatches fields data s = true ∧ o ∈ s.options)
    ∧ (∀ s : OptionSet, condMatches fields data s = true →
        ∃ c, s.condition = some c ∧ c.field ≠ "" ∧ c.value ≠ "")
    ∧ (∀ d : Values, getOptionsForField qFields fieldQ d = ["a"]) := by
  refine ⟨?_, ?_, ?_, fun d => rfl⟩
  · intro o ho
    exact (mem_getOptionsForField fields f data sets o hty hos hne).mpr (Or.inl ho)
  · intro o ho
    exact (mem_getOptionsForField fields f data sets o hty hos hne).mp ho
  · intro s hm
    unfold condMatches at hm
    cases hs : s.condition with
    | none => rw [hs] at hm; simp at hm
    | some c =>
      rw [hs] at hm
      by_cases hcc : c.field = "" ∨ c.value = ""
      · simp [hcc] at hm
      · push_neg at hcc
        exact ⟨c, rfl, hcc.1, hcc.2⟩

/-- Witness for C9: with all values empty, field Q still resolves to
exactly its first condition-less set's options. -/
theorem C9_first_default_only_witness :
    getOptionsForField qFields fieldQ (fun _ => "") = ["a"] :=
  (C9_first_default_only qFields fieldQ (fun _ => "") _ rfl rfl (by decide)).2.2.2
    (fun _ => "")

/-! ### Save sanitization, schema diff and order contiguity -/

/-- C10: during save, besides dropping option sets with an incomplete
condition, every surviving set that still has a condition also has a
non-empty options list (conditioned empty sets are removed), every
condition-less set survives even with an empty options list, and the
legacy `options` field is removed exactly when the sanitized
`optionSets` list is non-empty. -/
theorem C10_save_sanitization (f : Field) (i : Nat) (sets : List OptionSet)
    (h : f.optionSets = some sets) :
    ∃ sets', (sanitizeField f i).optionSets = some sets'
      ∧ (∀ s ∈ sets', ∀ c, s.condition = some c →
          (c.field ≠ "" ∧ c.value ≠ "") ∧ s.options ≠ [])
      ∧ (∀ s ∈ sets, s.condition = none → s ∈ sets')
      ∧ (sets' ≠ [] → (sanitizeField f i).options = none)
      ∧ (sets' = [] → (sanitizeField f i).options = f.options) := by
  simp only [sanitizeField, h]
  refine ⟨_, rfl, ?_, ?_, ?_, ?_⟩
  · intro s hs c hc
    rw [List.mem_filter, List.mem_filter] at hs
    obtain ⟨⟨hmem, h1⟩, h2⟩ := hs
    unfold completeCondSet at h1
    unfold keepSet at h2
    rw [hc] at h1 h2
    simp at h1 h2
    exact ⟨h1, List.length_pos.mp h2⟩
  · intro s hs hcnone
    rw [List.mem_filter, List.mem_filter]
    refine ⟨⟨hs, ?_⟩, ?_⟩
    · unfold completeCondSet
      rw [hcnone]
    · unfold keepSet
      rw [hcnone]
      simp
  · intro hne
    have hlen : 0 < ((sets.filter completeCondSet).filter keepSet).length :=
      List.length_pos.mpr hne
    rw [if_pos hlen]
  · intro hnil
    rw [hnil]
    simp

/-- Witness for C10: sanitizing the concrete field keeps the empty
default set and the conditioned set with options, and drops the rest;
its legacy options are removed. -/
theorem C10_save_sanitization_witness :
    ∃ sets', (sanitizeField c10Field 3).optionSets = some sets'
      ∧ (∀ s ∈ sets', ∀ c, s.condition = some c →
          (c.field ≠ "" ∧ c.value ≠ "") ∧ s.options ≠ [])
      ∧ (∀ s ∈ c10Sets, s.condition = none → s ∈ sets')
      ∧ (sets' ≠ [] → (sanitizeField c10Field 3).options = none)
      ∧ (sets' = [] → (sanitizeField c10Field 3).options = c10Field.options) :=
  C10_save_sanitization c10Field 3 c10Sets rfl

/-- C6 counterexample: on the spec's own diff scenario the save batch
does not contain exactly one update write — the unchanged, reordered
field f3 also receives an update. -/
theorem C6_counterexample :
    ¬ ((saveOps c6orig c6edited).countP isUpdateOp = 1) := by decide

/-- C6 (amended): on the diff scenario the save batch holds exactly
one insert (the new field, with an id-less payload), exactly one
delete (the removed field "b"), and an update for every surviving
persisted field — two of them, "a" and the content-unchanged "c",
the latter carrying its renumbered order 2. -/
theorem C6_schema_diff :
    (saveOps c6orig c6edited).countP isSetOp = 1
    ∧ (saveOps c6orig c6edited).countP isDeleteOp = 1
    ∧ (saveOps c6orig c6edited).countP isUpdateOp = 2
    ∧ saveOps c6orig c6edited =
        [WriteOp.updateDoc "a" (sanitizeField e1x 0),
         WriteOp.setDoc (sanitizeField e4 1),
         WriteOp.updateDoc "c" (sanitizeField e3 2),
         WriteOp.deleteDoc "b"]
    ∧ (sanitizeField e3 2).order = 2 := by decide

lemma renumber_orders (l : List Field) :
    (renumber l).map (fun f => f.order) = List.range l.length := by
  unfold renumber
  rw [List.map_map]
  have hcomp : ((fun f => f.order) ∘ fun p : Nat × Field => { p.2 with order := p.1 })
      = Prod.fst := by
    funext p; rfl
  rw [hcomp]
  exact List.enum_map_fst l

lemma renumber_length (l : List Field) : (renumber l).length = l.length := by
  simp [renumber]

/-- C7 (amended): `handleDeleteField` and `onDragEnd` renumber
unconditionally, so their results' order values always form the
contiguous sequence 0..N-1 matching positions, for every input list;
`handleAddField` appends with order = length without renumbering the
rest, so its result is contiguous provided the orders already were;
in particular deleting the order-1 field of the 3-field schema leaves
orders 0, 1. -/
theorem C7_order_contiguity (fields : List Field) (fid : String) (src dst : Nat)
    (nf : NewFieldInput) (ts : String) :
    ((handleDeleteField fid fields).map (fun f => f.order)
        = List.range (handleDeleteField fid fields).length)
    ∧ ((onDragEnd src dst fields).map (fun f => f.order)
        = List.range (onDragEnd src dst fields).length)
    ∧ (fields.map (fun f => f.order) = List.range fields.length →
        nf.label ≠ "" →
        ∀ res, handleAddField nf ts fields = some res →
          res.map (fun f => f.order) = List.range res.length)
    ∧ ((handleDeleteField "g2" c7Fields).map (fun f => f.order) = [0, 1]) := by
  refine ⟨?_, ?_, ?_, by decide⟩
  · unfold handleDeleteField
    rw [renumber_orders, renumber_length]
  · unfold onDragEnd
    rw [renumber_orders, renumber_length]
  · intro hcont hlabel res h
    unfold handleAddField at h
    rw [if_neg hlabel] at h
    injection h with h
    subst h
    rw [List.map_append, hcont, List.length_append]
    simp [List.range_succ]

/-- Witness for C7: deleting "g2" from the contiguous 3-field list
leaves contiguous orders, and adding a new field to it keeps them
contiguous. -/
theorem C7_order_contiguity_witness :
    ((handleDeleteField "g2" c7Fields).map (fun f => f.order)
        = List.range (handleDeleteField "g2" c7Fields).length)
    ∧ ((c7Fields ++ [c7NewField]).map (fun f => f.order)
        = List.range (c7Fields ++ [c7NewField]).length) :=
  ⟨(C7_order_contiguity c7Fields "g2" 0 2 c7nf "9").1,
   (C7_order_contiguity c7Fields "g2" 0 2 c7nf "9").2.2.1 (by decide) (by decide)
     (c7Fields ++ [c7NewField]) (by decide)⟩

/-- C7 counterexample: adding a field to a loaded list whose persisted
order is 5 yields orders [5, 1] — not the contiguous 0..N-1 the claim
asserts after every mutation (`handleAddField` does not renumber). -/
theorem C7_counterexample :
    (handleAddField c7nf "9" [c7bad]).map (fun l => l.map (fun f => f.order)) = some [5, 1]
    ∧ ([5, 1] : List Nat) ≠ List.range 2 := by decide

/-! ### Fixpoint termination (C3) -/

/-- `chainOk` fuel is enough for `isFieldVisible` to return a result,
for every value set. -/
lemma isFieldVisible_isSome_of_chainOk (fields : List FormField) :
    ∀ (n : Nat) (f : FormField) (data : Values),
      chainOk fields n f = true → (isFieldVisible fields n f data).isSome = true := by
  intro n
  induction n with
  | zero =>
    intro f data h
    simp [chainOk] at h
  | succ k ih =>
    intro f data h
    cases hc : f.conditional with
    | none => simp [isFieldVisible, hc]
    | some c =>
      simp only [chainOk, hc] at h
      simp only [isFieldVisible, hc]
      by_cases hcc : c.field ≠ "" ∧ c.value ≠ ""
      · rw [if_pos hcc] at h
        rw [if_pos hcc]
        cases hfind : fields.find? (fun g => g.id == c.field) with
        | none => simp [hfind]
        | some g =>
          rw [hfind] at h
          simp only [hfind]
          by_cases hany : c.value = "any"
          · rw [if_pos hany]
            by_cases hv : data g.name = ""
            · simp [hv]
            · simp only [if_neg hv]
              exact ih g data h
          · rw [if_neg hany]
            by_cases hv : data g.name ≠ c.value
            · simp [hv]
            · simp only [if_neg hv]
              exact ih g data h
      · rw [if_neg hcc] at h
        rw [if_neg hcc]
        simp

/-- When every schema field's conditional chain fits in the visibility
fuel, a cleaning pass always returns a result. -/
lemma cleanPassAux_isSome (allFields : List FormField) (visFuel : Nat)
    (hok : ∀ f ∈ allFields, chainOk allFields visFuel f = true) :
    ∀ (fs : List FormField) (data : Values) (ch : Bool),
      (∀ f ∈ fs, f ∈ allFields) →
      (cleanPassAux allFields visFuel fs data ch).isSome = true := by
  intro fs
  induction fs with
  | nil =>
    intro data ch _
    simp [cleanPassAux]
  | cons f rest ih =>
    intro data ch hsub
    have hf : f ∈ allFields := hsub f (List.mem_cons_self f rest)
    have hrest : ∀ g ∈ rest, g ∈ allFields := fun g hg => hsub g (List.mem_cons_of_mem f hg)
    have hvis := isFieldVisible_isSome_of_chainOk allFields visFuel f data (hok f hf)
    simp only [cleanPassAux]
    cases hv : isFieldVisible allFields visFuel f data with
    | none => rw [hv] at hvis; cases hvis
    | some vis =>
      simp only [hv]
      split
      · split
        · exact ih _ _ hrest
        · exact ih _ _ hrest
      · split
        · split
          · exact ih _ _ hrest
          · exact ih _ _ hrest
        · exact ih _ _ hrest

/-- A cleaning pass only clears values: every name either keeps its
value or ends empty. -/
lemma cleanPassAux_shrink (allFields : List FormField) (visFuel : Nat) :
    ∀ (fs : List FormField) (data : Values) (ch : Bool) (d : Values) (ch' : Bool),
      cleanPassAux allFields visFuel fs data ch = some (d, ch') →
      ∀ n, d n = data n ∨ d n = "" := by
  intro fs
  induction fs with
  | nil =>
    intro data ch d ch' h n
    simp only [cleanPassAux, Option.some_inj, Prod.mk.injEq] at h
    exact Or.inl (h.1 ▸ rfl)
  | cons f rest ih =>
    intro data ch d ch' h n
    simp only [cleanPassAux] at h
    cases hv : isFieldVisible allFields visFuel f data with
    | none => rw [hv] at h; cases h
    | some vis =>
      rw [hv] at h
      simp only [] at h
      split at h
      · split at h
        · rcases ih _ _ _ _ h n with h' | h'
          · by_cases hn : n = f.name
            · right; rw [h']; simp [upd, hn]
            · left; rw [h']; simp [upd, hn]
          · right; exact h'
        · exact ih _ _ _ _ h n
      · split at h
        · split at h
          · rcases ih _ _ _ _ h n with h' | h'
            · by_cases hn : n = f.name
              · right; rw [h']; simp [upd, hn]
              · left; rw [h']; simp [upd, hn]
            · right; exact h'
          · exact ih _ _ _ _ h n
        · exact ih _ _ _ _ h n

/-- A pass that starts with `changed = false` and reports
`changed = true` cleared at least one field: some processed field's
name held a non-empty value and ends empty. -/
lemma cleanPassAux_clears (allFields : List FormField) (visFuel : Nat) :
    ∀ (fs : List FormField) (data : Values) (d : Values),
      cleanPassAux allFields visFuel fs data false = some (d, true) →
      ∃ f ∈ fs, data f.name ≠ "" ∧ d f.name = "" := by
  intro fs
  induction fs with
  | nil =>
    intro data d h
    simp [cleanPassAux] at h
  | cons f rest ih =>
    intro data d h
    simp only [cleanPassAux] at h
    cases hv : isFieldVisible allFields visFuel f data with
    | none => rw [hv] at h; cases h
    | some vis =>
      rw [hv] at h
      simp only [] at h
      by_cases h1 : vis = false
      · rw [if_pos h1] at h
        by_cases h2 : data f.name ≠ ""
        · rw [if_pos h2] at h
          refine ⟨f, List.mem_cons_self f rest, h2, ?_⟩
          rcases cleanPassAux_shrink allFields visFuel rest (upd data f.name "") true d true
            h f.name with h' | h'
          · rw [h']; simp [upd]
          · exact h'
        · rw [if_neg h2] at h
          obtain ⟨g, hg, hgn⟩ := ih _ _ h
          exact ⟨g, List.mem_cons_of_mem f hg, hgn⟩
      · rw [if_neg h1] at h
        by_cases h3 : f.type = "select"
        · rw [if_pos h3] at h
          by_cases h4 : data f.name ≠ "" ∧ data f.name ∉ getOptionsForField allFields f data
          · rw [if_pos h4] at h
            refine ⟨f, List.mem_cons_self f rest, h4.1, ?_⟩
            rcases cleanPassAux_shrink allFields visFuel rest (upd data f.name "") true d true
              h f.name with h' | h'
            · rw [h']; simp [upd]
            · exact h'
          · rw [if_neg h4] at h
            obtain ⟨g, hg, hgn⟩ := ih _ _ h
            exact ⟨g, List.mem_cons_of_mem f hg, hgn⟩
        · rw [if_neg h3] at h
          obtain ⟨g, hg, hgn⟩ := ih _ _ h
          exact ⟨g, List.mem_cons_of_mem f hg, hgn⟩

/-- Number of names in the list whose value is non-empty: the measure
that every changing pass strictly decreases. -/
def nonemptyCount (names : List String) (data : Values) : Nat :=
  (names.filter (fun n => data n ≠ "")).length

lemma filter_shrink_le (data d : Values) (hsh : ∀ n, d n = data n ∨ d n = "") :
    ∀ names : List String,
      (names.filter (fun n => d n ≠ "")).length
        ≤ (names.filter (fun n => data n ≠ "")).length := by
  intro names
  induction names with
  | nil => simp
  | cons a as ih =>
    simp only [List.filter_cons]
    simp only [ne_eq, decide_not] at ih ⊢
    by_cases hd : d a = ""
    · by_cases hda : data a = ""
      · simpa [hd, hda] using ih
      · simp [hd, hda]
        omega
    · have hda : data a ≠ "" := by
        rcases hsh a with h | h
        · rw [← h]; exact hd
        · exact absurd h hd
      simp [hd, hda]
      omega

lemma nonemptyCount_lt (names : List String) (data d : Values)
    (hsh : ∀ n, d n = data n ∨ d n = "")
    (m : String) (hm : m ∈ names) (hne : data m ≠ "") (hz : d m = "") :
    nonemptyCount names d < nonemptyCount names data := by
  unfold nonemptyCount
  obtain ⟨l1, l2, rfl⟩ := List.append_of_mem hm
  rw [List.filter_append, List.filter_cons, List.filter_append, List.filter_cons]
  have h1 := filter_shrink_le data d hsh l1
  have h2 := filter_shrink_le data d hsh l2
  simp only [ne_eq, decide_not] at h1 h2 ⊢
  simp [hz, hne]
  omega

/-- The cleaning fixpoint completes once the pass fuel exceeds the
number of non-empty field names: every changing pass strictly shrinks
that count. -/
lemma cleanDataFuel_isSome (fields : List FormField) (visFuel : Nat)
    (hok : ∀ f ∈ fields, chainOk fields visFuel f = true) :
    ∀ (p : Nat) (data : Values),
      nonemptyCount (fields.map (fun f => f.name)) data < p →
      (cleanDataFuel fields visFuel p data).isSome = true := by
  intro p
  induction p with
  | zero =>
    intro data h
    exact absurd h (Nat.not_lt_zero _)
  | succ k ih =>
    intro data hlt
    simp only [cleanDataFuel]
    cases hp : cleanPassAux fields visFuel fields data false with
    | none =>
      have hsome := cleanPassAux_isSome fields visFuel hok fields data false (fun f hf => hf)
      rw [hp] at hsome
      cases hsome
    | some pr =>
      obtain ⟨d, changed⟩ := pr
      cases changed with
      | false => simp
      | true =>
        simp only [if_true]
        apply ih
        obtain ⟨f, hf, hne, hz⟩ := cleanPassAux_clears fields visFuel fields data d hp
        have hsh := cleanPassAux_shrink fields visFuel fields data false d true hp
        have hdec : nonemptyCount (fields.map (fun f => f.name)) d
            < nonemptyCount (fields.map (fun f => f.name)) data :=
          nonemptyCount_lt _ data d hsh f.name
            (List.mem_map_of_mem (fun f => f.name) hf) hne hz
        omega

/-- C3 (amended): for every schema whose conditional chains fit in the
visibility fuel and every starting value set, the cleaning fixpoint
terminates within N + 1 passes, N the number of fields — each pass
that reports a change clears at least one non-empty value and never
sets one, so at most N passes change anything and one final clean
pass ends the loop. -/
theorem C3_fixpoint_terminates (fields : List FormField) (visFuel : Nat) (data : Values)
    (hok : ∀ f ∈ fields, chainOk fields visFuel f = true) :
    (cleanDataFuel fields visFuel (fields.length + 1) data).isSome = true := by
  apply cleanDataFuel_isSome fields visFuel hok
  have h1 : ((fields.map (fun f => f.name)).filter (fun n => data n ≠ "")).length
      ≤ (fields.map (fun f => f.name)).length := List.length_filter_le _ _
  rw [List.length_map] at h1
  unfold nonemptyCount
  omega

/-- Witness for C3: on the three-field cascading schema the fixpoint
completes within 4 passes. -/
theorem C3_fixpoint_terminates_witness :
    (cleanDataFuel c1Fields 4 (c1Fields.length + 1) c1Vals).isSome = true :=
  C3_fixpoint_terminates c1Fields 4 c1Vals (by decide)

/-- C3 counterexample: the claim's bound of N passes is one short —
on a 1-field schema whose field must be cleared, the loop still
reports a change on pass 1 and needs a second pass to stop, so with
pass fuel N = 1 it has not terminated, while N + 1 = 2 passes do
suffice; and on the cyclic two-field schema the fixpoint does not
terminate at all, whatever generous fuel it gets. -/
theorem C3_counterexample :
    ([loneField].length = 1
      ∧ (cleanDataFuel [loneField] 2 1 loneVals).isNone = true
      ∧ (cleanDataFuel [loneField] 2 2 loneVals).isSome = true)
    ∧ (cleanDataFuel cycFields 100 5 cycVals).isNone = true := by decide

end CIRAV
